import Mathlib

/-!
Shallow embedding of the batch-orchestration core of
`src/gui_ffmpeg_compressor.py` (class `App`), together with theorems that
settle the frozen claims about it.  Python floats are modelled as `ℚ`,
Python ints as `Int`/`Nat`, Python strings as `String`.
-/

namespace FFmpegCompressor

/-- Source constant `CODEC_CHOICES` (label, ffmpeg encoder name). -/
def CODEC_CHOICES : List (String × String) :=
  [("H.264 (CPU x264)", "libx264"),
   ("H.265 (CPU x265)", "libx265"),
   ("H.264 (NVIDIA NVENC)", "h264_nvenc"),
   ("H.265 (NVIDIA NVENC)", "hevc_nvenc"),
   ("H.264 (Intel QSV)", "h264_qsv"),
   ("H.265 (Intel QSV)", "hevc_qsv"),
   ("H.264 (AMD AMF)", "h264_amf"),
   ("H.265 (AMD AMF)", "hevc_amf")]

/-- The encoder names selectable in the codec combobox (`state="readonly"`),
i.e. the second components of `CODEC_CHOICES`. -/
def CODEC_VALUES : List String := CODEC_CHOICES.map Prod.snd

/-- `App._is_gpu_encoder`: membership in the fixed tuple of hardware encoders. -/
def is_gpu_encoder (enc : String) : Bool :=
  enc = "h264_nvenc" || enc = "hevc_nvenc" || enc = "h264_qsv" ||
  enc = "hevc_qsv" || enc = "h264_amf" || enc = "hevc_amf"

/-- `App.start` line 481:
`snapshot_twopass = bool(self.twopass.get() and not self._is_gpu_encoder(snapshot_codec))`. -/
def snapshot_twopass_of (twopass : Bool) (snapshot_codec : String) : Bool :=
  twopass && !(is_gpu_encoder snapshot_codec)

/-- `App.start` line 488:
`passes = 2 if (snapshot_mode == "bitrate" and snapshot_twopass) else 1`. -/
def planned_passes (snapshot_mode : String) (snapshot_twopass : Bool) : Nat :=
  if snapshot_mode = "bitrate" && snapshot_twopass then 2 else 1

/-- The target of one entry of `RESOLUTION_PRESETS`: `None`, a `(w, h)`
tuple, or the string `"custom"`. -/
inductive ResTarget
  | keep
  | dims (w h : Int)
  | custom
deriving DecidableEq

/-- Source constant `RESOLUTION_PRESETS`. -/
def RESOLUTION_PRESETS : List (String × ResTarget) :=
  [("Keep original", ResTarget.keep),
   ("2160p 3840x2160", ResTarget.dims 3840 2160),
   ("1440p 2560x1440", ResTarget.dims 2560 1440),
   ("1080p 1920x1080", ResTarget.dims 1920 1080),
   ("720p 1280x720", ResTarget.dims 1280 720),
   ("480p 854x480", ResTarget.dims 854 480),
   ("360p 640x360", ResTarget.dims 640 360),
   ("240p 426x240", ResTarget.dims 426 240),
   ("144p 256x144", ResTarget.dims 256 144),
   ("Custom width", ResTarget.custom)]

/-- `App._build_scale_filter`: look the live resolution label up in
`RESOLUTION_PRESETS` (first match wins); an unmatched label or
`Keep original` yields no filter; `Custom width` clamps the live custom
width to at least 16 and keeps aspect (`:-2`). -/
def build_scale_filter (res_label : String) (custom_width : Int) : Option String :=
  match (RESOLUTION_PRESETS.find? (fun p => p.1 == res_label)).map Prod.snd with
  | none => none
  | some ResTarget.keep => none
  | some ResTarget.custom =>
      some ("scale=" ++ toString (max 16 custom_width) ++ ":-2")
  | some (ResTarget.dims w h) =>
      some ("scale=" ++ toString w ++ ":" ++ toString h)

/-- The `map_nv` dictionary lookup of `App._map_preset_args`, default `"p4"`. -/
def nv_preset_map (preset : String) : String :=
  if preset = "ultrafast" then "p1"
  else if preset = "superfast" then "p2"
  else if preset = "veryfast" then "p3"
  else if preset = "faster" then "p3"
  else if preset = "fast" then "p4"
  else if preset = "medium" then "p4"
  else if preset = "slow" then "p5"
  else if preset = "slower" then "p6"
  else if preset = "veryslow" then "p7"
  else "p4"

/-- `App._map_preset_args`. -/
def map_preset_args (vcodec preset : String) : List String :=
  if vcodec = "libx264" ∨ vcodec = "libx265" then
    ["-preset", preset]
  else if vcodec = "h264_nvenc" ∨ vcodec = "hevc_nvenc" then
    ["-preset", nv_preset_map preset, "-tune", "hq"]
  else if vcodec = "h264_qsv" ∨ vcodec = "hevc_qsv" then
    ["-preset", preset]
  else if vcodec = "h264_amf" ∨ vcodec = "hevc_amf" then
    ["-quality", "quality"]
  else []

/-- The `hw_flags` block of `App._convert_one` (lines 635-639). -/
def hw_flags (vcodec : String) : List String :=
  if vcodec = "h264_nvenc" ∨ vcodec = "hevc_nvenc" then
    ["-hwaccel", "cuda", "-hwaccel_output_format", "cuda"]
  else if vcodec = "h264_qsv" ∨ vcodec = "hevc_qsv" ∨ vcodec = "h264_amf" ∨ vcodec = "hevc_amf" then
    ["-hwaccel", "d3d11va"]
  else []

/-- The CRF-mode `v_args` block of `App._convert_one` (lines 656-669). -/
def crf_v_args (vcodec : String) (c : Int) : List String :=
  if vcodec = "h264_nvenc" ∨ vcodec = "hevc_nvenc" then
    ["-rc", "vbr", "-cq", toString (max 14 (min 35 c)), "-tune", "hq"]
  else if vcodec = "h264_qsv" ∨ vcodec = "hevc_qsv" then
    ["-global_quality", toString (max 16 (min 35 c))]
  else if vcodec = "h264_amf" ∨ vcodec = "hevc_amf" then
    ["-rc", "vbr_latency", "-quality", "quality",
     "-qp_i", toString (max 18 (min 35 c) - 1),
     "-qp_p", toString (max 18 (min 35 c)),
     "-qp_b", toString (max 18 (min 35 c) + 2)]
  else
    ["-crf", toString c]

/-- The single-pass bitrate-mode `v_args` block of `App._convert_one`
(lines 716-724). -/
def bitrate_v_args (vcodec : String) (kbps : String) : List String :=
  if vcodec = "h264_nvenc" ∨ vcodec = "hevc_nvenc" then
    ["-rc", "vbr", "-b:v", kbps, "-tune", "hq"]
  else if vcodec = "h264_qsv" ∨ vcodec = "hevc_qsv" then
    ["-b:v", kbps]
  else if vcodec = "h264_amf" ∨ vcodec = "hevc_amf" then
    ["-rc", "vbr_latency", "-b:v", kbps, "-quality", "quality"]
  else
    ["-b:v", kbps]

/-- The live Tk settings as read by `.get()` calls during `_convert_one`.
These are mutable UI variables, distinct from the snapshot taken in
`App.start`. -/
structure LiveSettings where
  codec : String
  vpreset : String
  abitrate : String
  mode : String
  crf : Int
  bitrate_kbps : Int
  res_choice : String
  custom_width : Int
deriving DecidableEq

/-- `App._convert_one`, argument-construction part: the list of ffmpeg
invocations (one or two argument lists) issued for one job.  `two_pass`
is the parameter computed in `_run_all` from the snapshot
(`snapshot_mode == "bitrate" and snapshot_twopass`); `snapshot_codec` is
the snapshot codec parameter, which the source accepts but never reads —
every codec/preset/mode/CRF/bitrate below comes from `live`, mirroring
the `.get()` calls at lines 628-630, 655-656, 682. -/
def convert_one_args (live : LiveSettings) (two_pass : Bool) (snapshot_codec : String)
    (ffmpeg_path src_path dst_path logf null_sink : String) : List (List String) :=
  let vcodec := live.codec
  let preset := live.vpreset
  let ab := live.abitrate
  let vf_args := match build_scale_filter live.res_choice live.custom_width with
    | some s => ["-vf", s]
    | none => []
  let common := [ffmpeg_path, "-y", "-hide_banner", "-progress", "pipe:1"]
      ++ hw_flags vcodec
      ++ ["-i", src_path, "-map", "0:v:0?", "-map", "0:a:0?", "-c:v", vcodec]
      ++ map_preset_args vcodec preset ++ vf_args
  if live.mode = "crf" then
    [common ++ crf_v_args vcodec live.crf
      ++ ["-c:a", "aac", "-b:a", ab, "-movflags", "+faststart", dst_path]]
  else
    let kbps := toString live.bitrate_kbps ++ "k"
    if two_pass && (vcodec = "libx264" || vcodec = "libx265") then
      [common ++ ["-b:v", kbps, "-pass", "1", "-passlogfile", logf, "-an", "-f", "mp4", null_sink],
       common ++ ["-b:v", kbps, "-pass", "2", "-passlogfile", logf,
                  "-c:a", "aac", "-b:a", ab, "-movflags", "+faststart", dst_path]]
    else
      [common ++ bitrate_v_args vcodec kbps
        ++ ["-c:a", "aac", "-b:a", ab, "-movflags", "+faststart", dst_path]]

/-- The plan-building loop of `App.start` (lines 483-490): fold the probed
`(duration, passes)` pairs into `total_units += dur * passes`. -/
def plan_total_units (plan_jobs : List (ℚ × Nat)) : ℚ :=
  plan_jobs.foldl (fun acc j => acc + j.1 * (j.2 : ℚ)) 0

/-- `App.start` line 492: `self.total_work_units = max(0.001, total_units)`. -/
def total_work_units (plan_jobs : List (ℚ × Nat)) : ℚ :=
  max (1/1000) (plan_total_units plan_jobs)

/-- The specification-side sum `Σ duration_i * passes_i` over the plan. -/
def spec_sum_units (plan_jobs : List (ℚ × Nat)) : ℚ :=
  (plan_jobs.map (fun j => j.1 * (j.2 : ℚ))).sum

/-- Python `int()` applied to a rational: truncation toward zero. -/
def pyTrunc (q : ℚ) : ℤ :=
  if q < 0 then Int.ceil q else Int.floor q

/-- `App._eta_seconds`:
`spd = max(0.05, float(speed_x or 1.0)); return int(remaining_sec / spd)`.
A `speed_x` of `0` is falsy in Python, so `or` replaces it by `1.0`. -/
def eta_seconds (remaining_sec : ℚ) (speed_x : ℚ) : ℤ :=
  pyTrunc (remaining_sec / max (1/20) (if speed_x = 0 then 1 else speed_x))

/-- One `out_time_ms` sample in `App._run_ffmpeg_with_progress` (line 796):
`out_time_sec = max(0.0, float(val) / 1_000_000.0)`; the previous stored
value is overwritten, not compared. -/
def out_time_step (_cur : ℚ) (sample_val : ℚ) : ℚ :=
  max 0 (sample_val / 1000000)

/-- The stored `out_time_sec` / `cur_file_pass_progress_sec` after a pass
consumes the given (already parsed) `out_time_ms` samples; it starts at
`0.0` at the beginning of each pass (line 774). -/
def consume_out_time (samples : List ℚ) : ℚ :=
  samples.foldl out_time_step 0

/-- Outcome of one ffmpeg pass: process exit 0 with a last observed
progress value, or non-zero exit (raising) with the progress observed at
the time of failure. -/
inductive PassOutcome
  | ok (final_progress : ℚ)
  | fail (progress_at_fail : ℚ)
deriving DecidableEq

/-- The two `App` fields that make up the batch work-unit ledger. -/
structure JobState where
  work_done_units : ℚ
  cur_file_pass_progress_sec : ℚ
deriving DecidableEq

/-- Ledger effect of `App._run_ffmpeg_with_progress`: during the pass the
progress samples drive `cur_file_pass_progress_sec` (reset to `0.0` at
pass start, line 774); on exit 0 the pass credits
`work_done_units += duration_sec` (line 860) and returns `true`; on a
non-zero exit it raises (returns `false`) leaving the partial progress
in place. -/
def run_ffmpeg_with_progress (duration_sec : ℚ) (st : JobState) (out : PassOutcome) :
    JobState × Bool :=
  let st0 : JobState := { st with cur_file_pass_progress_sec := 0 }
  match out with
  | PassOutcome.ok p =>
      ({ work_done_units := st0.work_done_units + duration_sec,
         cur_file_pass_progress_sec := p }, true)
  | PassOutcome.fail p =>
      ({ st0 with cur_file_pass_progress_sec := p }, false)

/-- Ledger effect of `App._convert_one`'s encoding section: one pass, or —
when `two_pass` holds and the (live) codec is CPU-class — pass 1 followed,
only if pass 1 succeeded, by pass 2 (with the progress reset of line 713). -/
def convert_one_passes (d : ℚ) (two_pass : Bool) (o1 o2 : PassOutcome) (st : JobState) :
    JobState × Bool :=
  if two_pass then
    match run_ffmpeg_with_progress d st o1 with
    | (st1, true) => run_ffmpeg_with_progress d st1 o2
    | (st1, false) => (st1, false)
  else
    run_ffmpeg_with_progress d st o1

/-- Ledger effect of one iteration of `App._run_all`'s job loop
(lines 563-576): on an exception the handler credits
`work_done_units += max(0.0, planned - cur_file_pass_progress_sec)` where
`planned = duration * passes` from the plan. -/
def run_all_handle_job (d : ℚ) (passes : Nat) (two_pass : Bool) (o1 o2 : PassOutcome)
    (st : JobState) : JobState × Bool :=
  match convert_one_passes d two_pass o1 o2 st with
  | (st1, true) => (st1, true)
  | (st1, false) =>
      ({ st1 with work_done_units :=
          st1.work_done_units + max 0 (d * (passes : ℚ) - st1.cur_file_pass_progress_sec) },
       false)

/-- Results of the two external ffprobe invocations inside
`App._is_media_ok`: whether the stream query succeeded with a non-empty
codec name, and the parsed `format=duration` (or `none` when the call or
the `float()` parse failed). -/
structure MediaProbe where
  has_video_stream : Bool
  duration_result : Option ℚ
deriving DecidableEq

/-- `App._is_media_ok`: the quick sanity check first (missing path, or a
size of at most 0 bytes, or a stat error — modelled by
`path_exists = false` — returns `False` with no probe run), then a video
stream must be present and the parsed duration must be positive. -/
def is_media_ok (path_exists : Bool) (size_bytes : Int) (probe : MediaProbe) : Bool :=
  if !path_exists || size_bytes ≤ 0 then false
  else if !probe.has_video_stream then false
  else match probe.duration_result with
    | none => false
    | some d => decide (0 < d)

/-- The counters of `App._run_all` touched by job completion. -/
structure RunCounters where
  completed_count : Nat
  failed_files : List String
deriving DecidableEq

/-- Result of the tail of `App._convert_one` (lines 737-746). -/
structure ConvertFinish where
  counters : RunCounters
  output_deleted : Bool
  raised : Bool
deriving DecidableEq

/-- Tail of `App._convert_one`: after the final encode returned without an
exception, validate the output; on validation failure delete it and append
the source to `failed_files` (if not already present) — no exception is
raised on this path. -/
def convert_one_validate (src_path : String) (validation_ok : Bool) (c : RunCounters) :
    ConvertFinish :=
  if !validation_ok then
    let c1 := if src_path ∈ c.failed_files then c
              else { c with failed_files := c.failed_files ++ [src_path] }
    { counters := c1, output_deleted := true, raised := false }
  else
    { counters := c, output_deleted := false, raised := false }

/-- One iteration of `App._run_all`'s loop restricted to the counters, for
a job whose encode completed (so the only possible exception source,
ffmpeg exit, did not fire): `_convert_one` runs its validation tail, and
since no exception reaches `_run_all`, `completed_count += 1` (line 569). -/
def run_all_step (src_path : String) (validation_ok : Bool) (c : RunCounters) : RunCounters :=
  let r := convert_one_validate src_path validation_ok c
  if r.raised then
    { r.counters with failed_files := r.counters.failed_files ++ [src_path] }
  else
    { r.counters with completed_count := r.counters.completed_count + 1 }

/-- What `App._compare_and_prune` observes about one original: its path,
the derived compressed path, whether that output exists, whether it passes
`_is_media_ok`, whether both `os.path.getsize` calls succeed, and the two
byte sizes. -/
structure OrigInfo where
  path : String
  comp_path : String
  compExists : Bool
  compValid : Bool
  sizeReadable : Bool
  origSize : Int
  compSize : Int
deriving DecidableEq

/-- The six counters local to `App._compare_and_prune`. -/
structure PruneCounters where
  deleted_originals : Nat
  deleted_compressed : Nat
  corrupt_compressed : Nat
  kept_originals : Nat
  kept_compressed : Nat
  missing_compressed : Nat
deriving DecidableEq

def PruneCounters.zero : PruneCounters := ⟨0, 0, 0, 0, 0, 0⟩

/-- State threaded through the `_compare_and_prune` loop: the counters, the
persistent `self.failed_files` list, the per-call `seen_fail_added` set,
and the paths handed to `_safe_remove` (which never raises). -/
structure PruneState where
  counters : PruneCounters
  failed_files : List String
  seen_fail_added : List String
  removed : List String
deriving DecidableEq

/-- One iteration of the `_compare_and_prune` loop (lines 952-1001). -/
def prune_item (st : PruneState) (it : OrigInfo) : PruneState :=
  if it.compExists = false then
    let st1 := { st with counters :=
      { st.counters with missing_compressed := st.counters.missing_compressed + 1 } }
    if it.path ∉ st1.failed_files ∧ it.path ∉ st1.seen_fail_added then
      { st1 with failed_files := st1.failed_files ++ [it.path],
                 seen_fail_added := st1.seen_fail_added ++ [it.path] }
    else st1
  else if it.compValid = false then
    { st with removed := st.removed ++ [it.comp_path],
              counters := { st.counters with
                corrupt_compressed := st.counters.corrupt_compressed + 1,
                kept_originals := st.counters.kept_originals + 1 } }
  else if it.sizeReadable = false then st
  else if it.compSize < it.origSize then
    { st with removed := st.removed ++ [it.path],
              counters := { st.counters with
                deleted_originals := st.counters.deleted_originals + 1,
                kept_compressed := st.counters.kept_compressed + 1 } }
  else
    { st with removed := st.removed ++ [it.comp_path],
              counters := { st.counters with
                deleted_compressed := st.counters.deleted_compressed + 1,
                kept_originals := st.counters.kept_originals + 1 } }

/-- `App._compare_and_prune`: fresh zero counters and a fresh empty
`seen_fail_added` each call; `failed_files` persists across calls. -/
def compare_and_prune (items : List OrigInfo) (failed_files : List String) : PruneState :=
  items.foldl prune_item
    { counters := PruneCounters.zero, failed_files := failed_files,
      seen_fail_added := [], removed := [] }

/-- C1: the claim says encoder argument lists depend only on the settings
snapshot taken at batch start.  In the source, `_convert_one` re-reads the
live Tk variables (`self.codec.get()` etc.) and ignores its
`snapshot_codec` parameter, so two runs with identical snapshots
(mode `crf`, two-pass flag resolved to `false`, snapshot codec `libx264`)
whose live codec is changed differently after start produce different
encoder invocations. -/
theorem convert_one_args_reads_live_settings :
    convert_one_args
      { codec := "libx264", vpreset := "medium", abitrate := "128k", mode := "crf",
        crf := 23, bitrate_kbps := 2500, res_choice := "Keep original", custom_width := 1280 }
      false "libx264" "ffmpeg" "in.mp4" "out.mp4" "ffpass.log" "/dev/null"
    ≠ convert_one_args
      { codec := "libx265", vpreset := "medium", abitrate := "128k", mode := "crf",
        crf := 23, bitrate_kbps := 2500, res_choice := "Keep original", custom_width := 1280 }
      false "libx264" "ffmpeg" "in.mp4" "out.mp4" "ffpass.log" "/dev/null" := by
  decide

/-- C2 counterexample: after a final encode that completes but fails output
validation, the source raises nothing (`raised = false`) and `_run_all`
still increments `completed_count` to 1, while the claim demands the job
not be counted among the succeeded jobs (count 0). -/
theorem validation_failure_counts_completed :
    (convert_one_validate "a.mp4" false ⟨0, []⟩).raised = false ∧
    (run_all_step "a.mp4" false ⟨0, []⟩).completed_count = 1 ∧
    (run_all_step "a.mp4" false ⟨0, []⟩).failed_files = ["a.mp4"] ∧
    (1 : ℕ) ≠ 0 := by
  decide

/-- C2 amended: on output-validation failure the pipeline deletes the
corrupt output and appends the job to the failed list in place (when not
already present); it raises no exception, so `_run_all` still counts the
job in `completed_count`. -/
theorem validation_failure_amended (src_path : String) (c : RunCounters)
    (h : src_path ∉ c.failed_files) :
    (convert_one_validate src_path false c).output_deleted = true ∧
    (convert_one_validate src_path false c).raised = false ∧
    (run_all_step src_path false c).failed_files = c.failed_files ++ [src_path] ∧
    (run_all_step src_path false c).completed_count = c.completed_count + 1 := by
  simp [convert_one_validate, run_all_step, h]

/-- C2 witness: the amended behaviour at a concrete job. -/
theorem validation_failure_amended_witness :
    (convert_one_validate "b.mp4" false ⟨3, ["x.mp4"]⟩).output_deleted = true ∧
    (convert_one_validate "b.mp4" false ⟨3, ["x.mp4"]⟩).raised = false ∧
    (run_all_step "b.mp4" false ⟨3, ["x.mp4"]⟩).failed_files = ["x.mp4"] ++ ["b.mp4"] ∧
    (run_all_step "b.mp4" false ⟨3, ["x.mp4"]⟩).completed_count = 3 + 1 :=
  validation_failure_amended "b.mp4" ⟨3, ["x.mp4"]⟩ (by decide)

/-- C4 counterexample: the aggregator overwrites the stored
`out_time_seconds` with each sample; after the samples `[5000000, 3000000]`
(five seconds, then an out-of-order three seconds) the stored value is 3,
regressing below the 5 observed earlier, while the claim demands the
maximum observed so far be kept. -/
theorem out_time_regresses :
    consume_out_time [5000000] = 5 ∧
    consume_out_time [5000000, 3000000] = 3 ∧
    ¬(5 ≤ (3 : ℚ)) := by
  refine ⟨?_, ?_, by norm_num⟩
  · simp [consume_out_time, out_time_step]
    rw [max_eq_right (by norm_num : (0:ℚ) ≤ 5000000 / 1000000)]
    norm_num
  · simp [consume_out_time, out_time_step]
    rw [max_eq_right (by norm_num : (0:ℚ) ≤ 3000000 / 1000000)]
    norm_num

/-- C4 amended: the stored `out_time_seconds` after any sequence of samples
is `max(0, last_sample / 1e6)` — each sample overwrites the previous value
(clamped to be non-negative), so an out-of-order smaller sample makes the
stored value regress rather than keeping the maximum observed. -/
theorem out_time_last_sample_wins (samples : List ℚ) (v : ℚ) :
    consume_out_time (samples ++ [v]) = max 0 (v / 1000000) := by
  simp [consume_out_time, List.foldl_append, out_time_step]

/-- C5 counterexample: `_eta_seconds` divides by `max(0.05, speed or 1.0)`.
At `R = 1, S = 1/100 > 0` it returns 20, not `floor(R / S) = 100`; at
`R = 1, S = 0` the Python `or` substitutes `1.0` (not the floor `ε`), so it
returns 1, not `floor(R / 0.05) = 20`. -/
theorem eta_seconds_claim_false :
    eta_seconds 1 (1/100) = 20 ∧ Int.floor ((1:ℚ) / (1/100)) = 100 ∧
    eta_seconds 1 0 = 1 ∧ Int.floor ((1:ℚ) / (1/20)) = 20 ∧
    (20 : ℤ) ≠ 100 ∧ (1 : ℤ) ≠ 20 := by
  refine ⟨?_, by norm_num, ?_, by norm_num, by decide, by decide⟩
  · simp only [eta_seconds, pyTrunc]
    rw [if_neg (by norm_num : ¬((1:ℚ)/100 = 0))]
    rw [max_eq_left (by norm_num : (1:ℚ)/100 ≤ 1/20)]
    rw [if_neg (by norm_num : ¬((1:ℚ) / (1/20) < 0))]
    norm_num
  · simp only [eta_seconds, pyTrunc, if_true]
    rw [max_eq_right (by norm_num : (1:ℚ)/20 ≤ 1)]
    rw [if_neg (by norm_num : ¬((1:ℚ) / 1 < 0))]
    norm_num

/-- C5 amended: for a non-negative remaining time `R`, the ETA equals
`floor(R / S)` whenever `S ≥ ε` (with `ε = 0.05`); for every non-zero
`S ≤ ε` (in particular the whole regime `0 < S < ε`) the divisor is
clamped up to `ε`, giving `floor(R / ε)`; and when `S = 0` the code
substitutes the default speed `1.0` — not `ε` — giving `floor(R)`. -/
theorem eta_seconds_amended (R S : ℚ) (hR : 0 ≤ R) :
    (1/20 ≤ S → eta_seconds R S = Int.floor (R / S)) ∧
    (S ≠ 0 → S ≤ 1/20 → eta_seconds R S = Int.floor (R / (1/20))) ∧
    (S = 0 → eta_seconds R S = Int.floor R) := by
  refine ⟨?_, ?_, ?_⟩
  · intro hS
    have hpos : (0:ℚ) < S := lt_of_lt_of_le (by norm_num) hS
    simp only [eta_seconds, pyTrunc]
    rw [if_neg hpos.ne', max_eq_right hS,
        if_neg (not_lt.mpr (div_nonneg hR hpos.le))]
  · intro hS0 hSle
    simp only [eta_seconds, pyTrunc]
    rw [if_neg hS0, max_eq_left hSle,
        if_neg (not_lt.mpr (div_nonneg hR (by norm_num : (0:ℚ) ≤ 1/20)))]
  · intro h
    subst h
    simp only [eta_seconds, pyTrunc, if_true]
    rw [max_eq_right (by norm_num : (1:ℚ)/20 ≤ 1), div_one,
        if_neg (not_lt.mpr hR)]

/-- C5 witness: the amended statement applied at `R = 0` with `S = ε`
(discharging both the `S ≥ ε` and the non-zero `S ≤ ε` clauses) and with
`S = 0`. -/
theorem eta_seconds_amended_witness :
    eta_seconds 0 (1/20) = Int.floor ((0:ℚ) / (1/20)) ∧
    eta_seconds 0 (1/20) = Int.floor ((0:ℚ) / (1/20)) ∧
    eta_seconds 0 0 = Int.floor (0:ℚ) :=
  ⟨(eta_seconds_amended 0 (1/20) (le_refl 0)).1 (le_refl (1/20)),
   (eta_seconds_amended 0 (1/20) (le_refl 0)).2.1
     (one_div_ne_zero (by simp)) (le_refl (1/20)),
   (eta_seconds_amended 0 0 (le_refl 0)).2.2 rfl⟩

/-- C3 counterexample: a two-pass job (duration 10) whose first pass
completed (crediting 10) and whose second pass fails at progress 4 ends
with `work_done_units = 10 + max(0, 20 - 4) = 26`, not the
`planned_duration × planned_passes = 20` the claim demands: the failure
handler subtracts only the current pass's progress, not the credit already
granted for the completed first pass. -/
theorem failed_job_overcredits :
    (run_all_handle_job 10 2 true (PassOutcome.ok 10) (PassOutcome.fail 4)
        ⟨0, 0⟩).1.work_done_units = 26 ∧
    (26 : ℚ) ≠ 10 * 2 := by
  constructor
  · simp [run_all_handle_job, convert_one_passes, run_ffmpeg_with_progress]
    norm_num
  · norm_num

/-- C3 amended: on a job failure, `_run_all` credits
`max(0, planned_duration × planned_passes − current_pass_progress)` on top
of whatever the job had already credited, so a job failing in its only
pass (or in pass 1 of two) at progress `p` accumulates
`max(0, d·passes − p)` in total, and a two-pass job failing in pass 2
accumulates `d + max(0, 2d − p)` — the completed first pass's credit is
not subtracted. -/
theorem failed_job_credit_amended (d p q : ℚ) (st : JobState) :
    ((run_all_handle_job d 1 false (PassOutcome.fail p) (PassOutcome.ok q)
        st).1.work_done_units = st.work_done_units + max 0 (d * 1 - p)) ∧
    ((run_all_handle_job d 2 true (PassOutcome.fail p) (PassOutcome.ok q)
        st).1.work_done_units = st.work_done_units + max 0 (d * 2 - p)) ∧
    ((run_all_handle_job d 2 true (PassOutcome.ok q) (PassOutcome.fail p)
        st).1.work_done_units = st.work_done_units + d + max 0 (d * 2 - p)) := by
  refine ⟨?_, ?_, ?_⟩ <;>
    simp [run_all_handle_job, convert_one_passes, run_ffmpeg_with_progress]

/-- C6: with a codec from the selectable list, `planned_passes = 2` exactly
when the snapshot mode is `bitrate`, the two-pass flag is set, and the
codec is one of the CPU software encoders `libx264`/`libx265`; every other
combination plans a single pass. -/
theorem planned_passes_two_iff (mode : String) (tp : Bool) (codec : String)
    (hc : codec ∈ CODEC_VALUES) :
    (planned_passes mode (snapshot_twopass_of tp codec) = 2 ↔
      (mode = "bitrate" ∧ tp = true ∧ (codec = "libx264" ∨ codec = "libx265"))) ∧
    (planned_passes mode (snapshot_twopass_of tp codec) = 1 ∨
      planned_passes mode (snapshot_twopass_of tp codec) = 2) := by
  have hv : codec = "libx264" ∨ codec = "libx265" ∨ codec = "h264_nvenc" ∨
      codec = "hevc_nvenc" ∨ codec = "h264_qsv" ∨ codec = "hevc_qsv" ∨
      codec = "h264_amf" ∨ codec = "hevc_amf" := by
    simpa [CODEC_VALUES, CODEC_CHOICES] using hc
  constructor
  · by_cases hm : mode = "bitrate" <;>
      rcases hv with rfl | rfl | rfl | rfl | rfl | rfl | rfl | rfl <;>
      cases tp <;>
      simp [planned_passes, snapshot_twopass_of, is_gpu_encoder, hm]
  · by_cases hm : mode = "bitrate" <;>
      rcases hv with rfl | rfl | rfl | rfl | rfl | rfl | rfl | rfl <;>
      cases tp <;>
      simp [planned_passes, snapshot_twopass_of, is_gpu_encoder, hm]

/-- C6 witness: the characterization at the concrete snapshot
(mode `bitrate`, two-pass on, codec `libx264`). -/
theorem planned_passes_two_iff_witness :
    (planned_passes "bitrate" (snapshot_twopass_of true "libx264") = 2 ↔
      ("bitrate" = "bitrate" ∧ true = true ∧
        ("libx264" = "libx264" ∨ "libx264" = "libx265"))) ∧
    (planned_passes "bitrate" (snapshot_twopass_of true "libx264") = 1 ∨
      planned_passes "bitrate" (snapshot_twopass_of true "libx264") = 2) :=
  planned_passes_two_iff "bitrate" true "libx264" (by decide)

/-- C8 counterexample: for a single planned job of probed duration 0 the
source sets `total_work_units = max(0.001, 0) = 0.001`, which differs from
`Σ duration_i × passes_i = 0`, so the claimed equality fails in exactly
the zero-duration case the claim includes. -/
theorem total_work_units_clamped :
    total_work_units [((0:ℚ), 1)] = 1/1000 ∧
    spec_sum_units [((0:ℚ), 1)] = 0 ∧
    (1:ℚ)/1000 ≠ 0 := by
  refine ⟨?_, by simp [spec_sum_units], by norm_num⟩
  simp [total_work_units, plan_total_units]

/-- Folding `acc + duration·passes` over a list equals adding the mapped sum. -/
theorem plan_total_units_eq_sum (plan_jobs : List (ℚ × Nat)) :
    plan_total_units plan_jobs = spec_sum_units plan_jobs := by
  have h : ∀ (l : List (ℚ × Nat)) (a : ℚ),
      l.foldl (fun acc j => acc + j.1 * (j.2 : ℚ)) a
        = a + (l.map (fun j => j.1 * (j.2 : ℚ))).sum := by
    intro l
    induction l with
    | nil => intro a; simp
    | cons x xs ih =>
        intro a
        simp [List.foldl_cons, ih, add_assoc]
  simpa [plan_total_units, spec_sum_units] using h plan_jobs 0

/-- C8 amended: the plan's budget is `max(0.001, Σ duration_i × passes_i)`:
it equals the sum whenever the sum reaches the 0.001 clamp, and it is
always strictly positive, including when every probed duration is zero. -/
theorem total_work_units_amended (plan_jobs : List (ℚ × Nat)) :
    total_work_units plan_jobs = max (1/1000) (spec_sum_units plan_jobs) ∧
    0 < total_work_units plan_jobs := by
  constructor
  · rw [total_work_units, plan_total_units_eq_sum]
  · exact lt_of_lt_of_le (by norm_num) (le_max_left _ _)

/-- C10: a missing path or a byte size of zero makes `_is_media_ok` return
`False` for every possible outcome of the external probes — the quick
sanity check fires before any probe is consulted. -/
theorem is_media_ok_needs_nonempty_file (path_exists : Bool) (size_bytes : ℤ)
    (probe : MediaProbe) (h : path_exists = false ∨ size_bytes = 0) :
    is_media_ok path_exists size_bytes probe = false := by
  rcases h with h | h
  · subst h
    simp [is_media_ok]
  · subst h
    simp [is_media_ok]

/-- C10 witness: a non-existent path is rejected even when the probe would
report a perfectly healthy stream and duration. -/
theorem is_media_ok_needs_nonempty_file_witness :
    is_media_ok false 7 ⟨true, some 5⟩ = false :=
  is_media_ok_needs_nonempty_file false 7 ⟨true, some 5⟩ (Or.inl rfl)

/-- C7: for an original whose output exists, validates, and whose sizes are
readable, reconciliation deletes the original and keeps the output exactly
when the output is strictly smaller; otherwise (ties included) it deletes
the output and keeps the original — the failed list and all other state
are untouched. -/
theorem prune_valid_pair_keeps_smaller (st : PruneState) (it : OrigInfo)
    (h1 : it.compExists = true) (h2 : it.compValid = true) (h3 : it.sizeReadable = true) :
    (it.compSize < it.origSize →
      prune_item st it =
        { st with removed := st.removed ++ [it.path],
                  counters := { st.counters with
                    deleted_originals := st.counters.deleted_originals + 1,
                    kept_compressed := st.counters.kept_compressed + 1 } }) ∧
    (it.origSize ≤ it.compSize →
      prune_item st it =
        { st with removed := st.removed ++ [it.comp_path],
                  counters := { st.counters with
                    deleted_compressed := st.counters.deleted_compressed + 1,
                    kept_originals := st.counters.kept_originals + 1 } }) := by
  constructor
  · intro hlt
    simp [prune_item, h1, h2, h3, hlt]
  · intro hge
    simp [prune_item, h1, h2, h3, not_lt.mpr hge]

/-- C7 witness: an 80-byte output against a 100-byte original deletes the
original; a 100-byte output against a 100-byte original (tie) deletes the
output. -/
theorem prune_valid_pair_keeps_smaller_witness :
    (prune_item ⟨PruneCounters.zero, [], [], []⟩
        ⟨"a.mp4", "cv/a.mp4", true, true, true, 100, 80⟩ =
      { counters := { PruneCounters.zero with deleted_originals := 1, kept_compressed := 1 },
        failed_files := [], seen_fail_added := [], removed := ["a.mp4"] }) ∧
    (prune_item ⟨PruneCounters.zero, [], [], []⟩
        ⟨"b.mp4", "cv/b.mp4", true, true, true, 100, 100⟩ =
      { counters := { PruneCounters.zero with deleted_compressed := 1, kept_originals := 1 },
        failed_files := [], seen_fail_added := [], removed := ["cv/b.mp4"] }) :=
  ⟨(prune_valid_pair_keeps_smaller ⟨PruneCounters.zero, [], [], []⟩
      ⟨"a.mp4", "cv/a.mp4", true, true, true, 100, 80⟩ rfl rfl rfl).1
        (by decide),
   (prune_valid_pair_keeps_smaller ⟨PruneCounters.zero, [], [], []⟩
      ⟨"b.mp4", "cv/b.mp4", true, true, true, 100, 100⟩ rfl rfl rfl).2
        (by decide)⟩

/-- Case analysis of one `_compare_and_prune` iteration's effect on the
failed list and the `seen_fail_added` set: either both are extended by the
missing original's path (when the output is missing and the path is new),
or both are left unchanged. -/
theorem prune_item_failed_cases (st : PruneState) (it : OrigInfo) :
    (it.compExists = false ∧
      (it.path ∉ st.failed_files ∧ it.path ∉ st.seen_fail_added) ∧
      (prune_item st it).failed_files = st.failed_files ++ [it.path] ∧
      (prune_item st it).seen_fail_added = st.seen_fail_added ++ [it.path]) ∨
    ((it.compExists = true ∨ ¬(it.path ∉ st.failed_files ∧ it.path ∉ st.seen_fail_added)) ∧
      (prune_item st it).failed_files = st.failed_files ∧
      (prune_item st it).seen_fail_added = st.seen_fail_added) := by
  by_cases h1 : it.compExists = false
  · by_cases h2 : it.path ∉ st.failed_files ∧ it.path ∉ st.seen_fail_added
    · exact Or.inl ⟨h1, h2, by simp [prune_item, h1, h2], by simp [prune_item, h1, h2]⟩
    · refine Or.inr ⟨Or.inr h2, ?_, ?_⟩ <;> simp [prune_item, h1, h2]
  · have h1' : it.compExists = true := by
      revert h1
      cases it.compExists <;> simp
    refine Or.inr ⟨Or.inl h1', ?_, ?_⟩ <;>
      · simp only [prune_item, h1', if_neg (by simp : ¬(true = false))]
        split
        · rfl
        · split
          · rfl
          · split <;> rfl

/-- One reconciliation step only ever appends to the failed list. -/
theorem prune_item_failed_mono (st : PruneState) (it : OrigInfo) (x : String)
    (hx : x ∈ st.failed_files) : x ∈ (prune_item st it).failed_files := by
  rcases prune_item_failed_cases st it with ⟨_, _, hf, _⟩ | ⟨_, hf, _⟩ <;>
    rw [hf] <;> simp [hx]

/-- The reconciliation fold only ever appends to the failed list. -/
theorem prune_foldl_failed_mono (items : List OrigInfo) (st : PruneState) (x : String)
    (hx : x ∈ st.failed_files) :
    x ∈ (items.foldl prune_item st).failed_files := by
  induction items generalizing st with
  | nil => simpa using hx
  | cons a l ih => exact ih (prune_item st a) (prune_item_failed_mono st a x hx)

/-- One reconciliation step keeps `seen_fail_added` inside the failed list. -/
theorem prune_item_seen_subset (st : PruneState) (it : OrigInfo)
    (hinv : ∀ x ∈ st.seen_fail_added, x ∈ st.failed_files) :
    ∀ x ∈ (prune_item st it).seen_fail_added, x ∈ (prune_item st it).failed_files := by
  rcases prune_item_failed_cases st it with ⟨_, _, hf, hs⟩ | ⟨_, hf, hs⟩ <;>
    rw [hf, hs] <;> intro x hx
  · rcases List.mem_append.mp hx with hx | hx
    · exact List.mem_append.mpr (Or.inl (hinv x hx))
    · exact List.mem_append.mpr (Or.inr hx)
  · exact hinv x hx

/-- A missing output lands the original's path in the failed list after its
own step (given the `seen ⊆ failed` invariant). -/
theorem prune_item_missing_mem (st : PruneState) (it : OrigInfo)
    (hinv : ∀ x ∈ st.seen_fail_added, x ∈ st.failed_files)
    (hm : it.compExists = false) :
    it.path ∈ (prune_item st it).failed_files := by
  rcases prune_item_failed_cases st it with ⟨_, _, hf, _⟩ | ⟨hor, hf, _⟩
  · rw [hf]
    simp
  · rw [hf]
    rcases hor with hor | hor
    · rw [hm] at hor
      cases hor
    · push_neg at hor
      by_cases hmem : it.path ∈ st.failed_files
      · exact hmem
      · exact hinv it.path (hor hmem)

/-- A missing output of any processed original lands in the fold's final
failed list. -/
theorem prune_foldl_missing_mem (items : List OrigInfo) (st : PruneState)
    (hinv : ∀ x ∈ st.seen_fail_added, x ∈ st.failed_files)
    (it : OrigInfo) (hmem : it ∈ items) (hm : it.compExists = false) :
    it.path ∈ (items.foldl prune_item st).failed_files := by
  induction items generalizing st with
  | nil => cases hmem
  | cons a l ih =>
      rcases List.mem_cons.mp hmem with rfl | hmem
      · exact prune_foldl_failed_mono l (prune_item st it) it.path
          (prune_item_missing_mem st it hinv hm)
      · exact ih (prune_item st a) (prune_item_seen_subset st a hinv) hmem

/-- One reconciliation step never pushes a path's multiplicity in the failed
list above one: an append is guarded by non-membership. -/
theorem prune_item_count_le_one (st : PruneState) (it : OrigInfo) (x : String)
    (hx : List.count x st.failed_files ≤ 1) :
    List.count x (prune_item st it).failed_files ≤ 1 := by
  rcases prune_item_failed_cases st it with ⟨_, ⟨hnf, _⟩, hf, _⟩ | ⟨_, hf, _⟩
  · rw [hf]
    by_cases hxp : x = it.path
    · have h0 : List.count x st.failed_files = 0 :=
        List.count_eq_zero.mpr (by rw [hxp]; exact hnf)
      have h1 : List.count x [it.path] ≤ 1 := by
        rw [hxp]
        simp
      rw [List.count_append, h0]
      omega
    · have h1 : List.count x [it.path] = 0 := List.count_eq_zero.mpr (by simp [hxp])
      rw [List.count_append, h1]
      omega
  · rw [hf]
    exact hx

/-- The fold never pushes a path's multiplicity in the failed list above one. -/
theorem prune_foldl_count_le_one (items : List OrigInfo) (st : PruneState) (x : String)
    (hx : List.count x st.failed_files ≤ 1) :
    List.count x (items.foldl prune_item st).failed_files ≤ 1 := by
  induction items generalizing st with
  | nil => simpa using hx
  | cons a l ih => exact ih (prune_item st a) (prune_item_count_le_one st a x hx)

/-- A step whose missing-output path is already in the failed list leaves
the failed list unchanged. -/
theorem prune_item_failed_nochange (st : PruneState) (it : OrigInfo)
    (h : it.compExists = false → it.path ∈ st.failed_files) :
    (prune_item st it).failed_files = st.failed_files := by
  rcases prune_item_failed_cases st it with ⟨hm, ⟨hnf, _⟩, _, _⟩ | ⟨_, hf, _⟩
  · exact absurd (h hm) hnf
  · exact hf

/-- A fold whose missing-output paths are all already in the failed list
leaves the failed list unchanged. -/
theorem prune_foldl_failed_nochange (items : List OrigInfo) (st : PruneState)
    (h : ∀ it ∈ items, it.compExists = false → it.path ∈ st.failed_files) :
    (items.foldl prune_item st).failed_files = st.failed_files := by
  induction items generalizing st with
  | nil => rfl
  | cons a l ih =>
      have ha : (prune_item st a).failed_files = st.failed_files :=
        prune_item_failed_nochange st a (h a (List.mem_cons_self a l))
      rw [List.foldl_cons, ih (prune_item st a)]
      · exact ha
      · intro it hit hm
        rw [ha]
        exact h it (List.mem_cons_of_mem a hit) hm

/-- One step increments `missing_compressed` exactly when the output is
missing, regardless of the failed-list guard. -/
theorem prune_item_missing_count (st : PruneState) (it : OrigInfo) :
    (prune_item st it).counters.missing_compressed =
      st.counters.missing_compressed + (if it.compExists = false then 1 else 0) := by
  by_cases h1 : it.compExists = false
  · rw [if_pos h1]
    simp only [prune_item, if_pos h1]
    split <;> rfl
  · rw [if_neg h1]
    simp only [prune_item, if_neg h1]
    split
    · rfl
    · split
      · rfl
      · split <;> rfl

/-- The fold counts one `missing_compressed` per missing output. -/
theorem prune_foldl_missing_count (items : List OrigInfo) (st : PruneState) :
    (items.foldl prune_item st).counters.missing_compressed =
      st.counters.missing_compressed + items.countP (fun j => !j.compExists) := by
  induction items generalizing st with
  | nil => simp
  | cons a l ih =>
      rw [List.foldl_cons, ih (prune_item st a), prune_item_missing_count st a,
        List.countP_cons]
      have : (if a.compExists = false then 1 else 0) = (if (!a.compExists) = true then 1 else 0) := by
        cases a.compExists <;> rfl

      rw [this]
      omega

/-- C9: a missing output is counted as `missing_compressed` once per pass
and its original is appended to the failed list exactly once, and a second
reconciliation pass over the same inputs leaves the failed list unchanged. -/
theorem compare_and_prune_missing_once (items : List OrigInfo) (failed : List String)
    (it : OrigInfo) (h1 : it ∈ items) (h2 : it.compExists = false)
    (h3 : it.path ∉ failed) :
    it.path ∈ (compare_and_prune items failed).failed_files ∧
    List.count it.path (compare_and_prune items failed).failed_files = 1 ∧
    (compare_and_prune items
        (compare_and_prune items failed).failed_files).failed_files =
      (compare_and_prune items failed).failed_files ∧
    (compare_and_prune items failed).counters.missing_compressed =
      items.countP (fun j => !j.compExists) := by
  have hmem : it.path ∈ (compare_and_prune items failed).failed_files :=
    prune_foldl_missing_mem items _ (by intro x hx; cases hx) it h1 h2
  refine ⟨hmem, ?_, ?_, ?_⟩
  · have hle : List.count it.path (compare_and_prune items failed).failed_files ≤ 1 :=
      prune_foldl_count_le_one items _ it.path
        (by rw [List.count_eq_zero.mpr h3]; omega)
    have hge : 0 < List.count it.path (compare_and_prune items failed).failed_files :=
      List.count_pos_iff.mpr hmem
    omega
  · apply prune_foldl_failed_nochange
    intro j hj hmj
    exact prune_foldl_missing_mem items _ (by intro x hx; cases hx) j hj hmj
  · have h := prune_foldl_missing_count items
      { counters := PruneCounters.zero, failed_files := failed,
        seen_fail_added := [], removed := [] }
    simpa [compare_and_prune, PruneCounters.zero] using h

/-- C9 witness: one original with a missing output, starting from an empty
failed list. -/
theorem compare_and_prune_missing_once_witness :
    "a.mp4" ∈ (compare_and_prune
        [⟨"a.mp4", "cv/a.mp4", false, false, false, 0, 0⟩] []).failed_files ∧
    List.count "a.mp4" (compare_and_prune
        [⟨"a.mp4", "cv/a.mp4", false, false, false, 0, 0⟩] []).failed_files = 1 ∧
    (compare_and_prune [⟨"a.mp4", "cv/a.mp4", false, false, false, 0, 0⟩]
        (compare_and_prune [⟨"a.mp4", "cv/a.mp4", false, false, false, 0, 0⟩]
          []).failed_files).failed_files =
      (compare_and_prune [⟨"a.mp4", "cv/a.mp4", false, false, false, 0, 0⟩]
        []).failed_files ∧
    (compare_and_prune [⟨"a.mp4", "cv/a.mp4", false, false, false, 0, 0⟩]
        []).counters.missing_compressed =
      List.countP (fun j => !j.compExists)
        [(⟨"a.mp4", "cv/a.mp4", false, false, false, 0, 0⟩ : OrigInfo)] :=
  compare_and_prune_missing_once
    [⟨"a.mp4", "cv/a.mp4", false, false, false, 0, 0⟩] []
    ⟨"a.mp4", "cv/a.mp4", false, false, false, 0, 0⟩
    (by decide) rfl (by decide)

end FFmpegCompressor
